import Mathlib

/-!
Shallow embedding of `libraries/chain/market_evaluator.cpp`: the three
market evaluators (`limit_order_create_evaluator`, `limit_order_cancel_evaluator`,
`call_order_update_evaluator`) of the chain library, together with the
ledger state they read and mutate.  External collaborators (the order
matching engine `apply_order`, the liquidation trigger `check_call_orders`,
and the accessor primitive `cancel_order`) are modelled at their interface:
their boolean results and their effect on the records the evaluators track
are supplied as explicit parameters, and each invocation is recorded in a
trace of external calls.  Machine integers (`share_type`) are modelled as
`Int`; identifiers and symbols as `Nat`.
-/

namespace Golos

abbrev Symbol := Nat
abbrev AccountId := Nat
abbrev OrderId := Nat

/-- The network's native asset symbol (`STEEM_SYMBOL`). -/
def STEEM_SYMBOL : Symbol := 0

/-- A quantity of some asset: `asset { share_type amount; asset_symbol_type symbol; }`. -/
structure asset where
  amount : Int
  symbol : Symbol
deriving DecidableEq, Repr

/-- A price: a ratio `base / quote` of two asset quantities. -/
structure price where
  base : asset
  quote : asset
deriving DecidableEq, Repr

/-- Price inversion `~p`: swap base and quote. -/
def price.invert (p : price) : price := ⟨p.quote, p.base⟩

/-- Modelled from the spec: the price comparison used by the evaluators
(`operator<` on `price`, defined outside this source file).  `a < b` holds
when the ratio `a.base/a.quote` is less than `b.base/b.quote`, decided by
cross multiplication of the amounts. -/
def price.lt (a b : price) : Bool :=
  a.base.amount * b.quote.amount < b.base.amount * a.quote.amount

/-- Modelled from the spec: a null (unset) settlement price, as tested by
`price::is_null()` — both components have zero amount. -/
def price.is_null (p : price) : Bool :=
  p.base.amount = 0 && p.quote.amount = 0

/-- Denominator of the maintenance collateral ratio (per-mille fixed point). -/
def COLLATERAL_RATIO_DENOM : Int := 1000

/-- Modelled from the spec: the Price/Collateral Math function
`price::call_price(debt, collateral, maintenance_collateral_ratio)` — a pure
function of the debt amount, the collateral amount and the maintenance
collateral ratio, giving the liquidation price of the position.  The body
of `price::call_price` is not part of this source file; the ratio is
applied to the debt side and the resulting collateral-per-debt price is
returned. -/
def price.call_price (debt collateral : asset) (collateral_ratio : Nat) : price :=
  price.invert
    ⟨⟨debt.amount * (collateral_ratio : Int), debt.symbol⟩,
     ⟨collateral.amount * COLLATERAL_RATIO_DENOM, collateral.symbol⟩⟩

/-- The published price feed of a market-issued asset. -/
structure price_feed where
  settlement_price : price
  maintenance_collateral_ratio : Nat
deriving DecidableEq, Repr

/-- The bitasset data of a market-issued asset. -/
structure bitasset_data where
  is_prediction_market : Bool
  short_backing_asset : Symbol
  current_feed : price_feed
  has_settlement : Bool
deriving DecidableEq, Repr

/-- Per-asset market restrictions (`asset_object::options`). -/
structure asset_options where
  whitelist_markets : List Symbol
  blacklist_markets : List Symbol
deriving DecidableEq, Repr

/-- A resting limit order (`limit_order_object`), keyed externally by its id. -/
structure limit_order_object where
  seller : AccountId
  for_sale : Int
  sell_price : price
  expiration : Nat
  deferred_fee : Int
deriving DecidableEq, Repr

/-- The remaining amount for sale of a limit order, as an asset quantity
(`limit_order_object::amount_for_sale`). -/
def limit_order_object.amount_for_sale (o : limit_order_object) : asset :=
  ⟨o.for_sale, o.sell_price.base.symbol⟩

/-- A collateralized debt position (`call_order_object`), keyed externally
by the pair (borrower, debt asset symbol). -/
structure call_order_object where
  borrower : AccountId
  collateral : Int
  debt : Int
  call_price : price
deriving DecidableEq, Repr

section AList

variable {κ ν : Type} [DecidableEq κ]

/-- First-match lookup in an association list. -/
def alookup (k : κ) : List (κ × ν) → Option ν
  | [] => none
  | p :: ps => if p.1 = k then some p.2 else alookup k ps

/-- Point update of an association list (first-match semantics: cons wins). -/
def aset (k : κ) (v : ν) (m : List (κ × ν)) : List (κ × ν) :=
  (k, v) :: m

/-- Delete every binding of a key from an association list. -/
def aremove (k : κ) (m : List (κ × ν)) : List (κ × ν) :=
  m.filter (fun p => decide (p.1 ≠ k))

/-- Lookup with a default value. -/
def agetD (k : κ) (d₀ : ν) (m : List (κ × ν)) : ν :=
  (alookup k m).getD d₀

theorem alookup_aset_self (k : κ) (v : ν) (m : List (κ × ν)) :
    alookup k (aset k v m) = some v := by
  simp [alookup, aset]

theorem alookup_aset_ne (k k' : κ) (v : ν) (m : List (κ × ν)) (h : k' ≠ k) :
    alookup k' (aset k v m) = alookup k' m := by
  have h' : ¬ (k = k') := fun h'' => h h''.symm
  simp [alookup, aset, h']

theorem alookup_aremove_self (k : κ) (m : List (κ × ν)) :
    alookup k (aremove k m) = none := by
  induction m with
  | nil => simp [alookup, aremove]
  | cons p ps ih =>
    by_cases h : p.1 = k
    · simpa [aremove, List.filter, h] using ih
    · simpa [aremove, List.filter, h, alookup] using ih

theorem alookup_aremove_ne (k k' : κ) (m : List (κ × ν)) (h : k' ≠ k) :
    alookup k' (aremove k m) = alookup k' m := by
  induction m with
  | nil => simp [alookup, aremove]
  | cons p ps ih =>
    by_cases h1 : p.1 = k
    · have h2 : ¬ (p.1 = k') := by
        rw [h1]
        exact fun h' => h h'.symm
      rw [show alookup k' ((p :: ps) : List (κ × ν)) = alookup k' ps by simp [alookup, h2]]
      rw [show aremove k (p :: ps) = aremove k ps by simp [aremove, List.filter, h1]]
      exact ih
    · rw [show aremove k (p :: ps) = p :: aremove k ps by simp [aremove, List.filter, h1]]
      by_cases h2 : p.1 = k'
      · simp [alookup, h2]
      · simp [alookup, h2]
        exact ih

end AList

/-- The ledger state visible to the three evaluators. -/
structure Database where
  head_block_time : Nat
  balances : List ((AccountId × Symbol) × Int)
  /-- `account_statistics_object::total_core_in_orders` per account. -/
  stats : List (AccountId × Int)
  asset_opts : List (Symbol × asset_options)
  bitassets : List (Symbol × bitasset_data)
  authorizations : List ((AccountId × Symbol) × Bool)
  current_supply : List (Symbol × Int)
  limit_orders : List (OrderId × limit_order_object)
  next_order_id : OrderId
  call_orders : List ((AccountId × Symbol) × call_order_object)
deriving DecidableEq, Repr

/-- `database::get_balance(account, asset)`: the account's balance in the
given asset (zero when no balance record exists). -/
def getBal (d : Database) (a : AccountId) (s : Symbol) : Int :=
  agetD (a, s) 0 d.balances

/-- The account's `total_core_in_orders` statistic. -/
def getStat (d : Database) (a : AccountId) : Int :=
  agetD a 0 d.stats

/-- The current supply of an asset's dynamic data record. -/
def getSupply (d : Database) (s : Symbol) : Int :=
  agetD s 0 d.current_supply

/-- `database::is_authorized_asset(account, asset)` (external predicate;
defaults to authorized when no restriction record exists). -/
def isAuthorized (d : Database) (a : AccountId) (s : Symbol) : Bool :=
  (alookup (a, s) d.authorizations).getD true

/-- `database::adjust_balance(account, delta)`: add the signed quantity to
the account's balance in the delta's asset. -/
def Database.adjust_balance (d : Database) (a : AccountId) (delta : asset) : Database :=
  { d with balances := aset (a, delta.symbol) (getBal d a delta.symbol + delta.amount) d.balances }

/-- The error outcomes of the evaluators.  Each constructor names one
assertion site of the source; the first group are the user errors the spec
names, the `fatal*` constructors are the internal-consistency faults. -/
inductive Err where
  | expired
  | assetMissing
  | marketRestricted
  | assetNotAuthorized
  | insufficientBalance
  | fillOrKillFailed
  | orderNotFound
  | notOwner
  | notCollateralizedAsset
  | settlementInProgress
  | wrongCollateralAsset
  | predictionMarketMismatch
  | noPriceFeed
  | missingCallOrderRequiresPositiveCollateral
  | missingCallOrderRequiresPositiveDebt
  | unfilledMarginCall
  | callObjectDeletedWithoutFill
  | fatalNegativeSupply
  | fatalDebtZeroCollateralNonzero
  | fatalNonPositive
deriving DecidableEq, Repr

/-- The fatal internal-consistency faults, as distinguished by the spec
from surfaced user errors. -/
def Err.isFatal : Err → Bool
  | .fatalNegativeSupply => true
  | .fatalDebtZeroCollateralNonzero => true
  | .fatalNonPositive => true
  | _ => false

/-- One invocation of an external collaborator, recorded in evaluation order. -/
inductive ExtCall where
  | applyOrder (id : OrderId)
  | cancelOrder (id : OrderId) (create_virtual : Bool)
  | checkCallOrders (sym : Symbol) (allow_black_swan : Bool)
deriving DecidableEq, Repr

/-- The wire payload of `limit_order_create_operation`. -/
structure limit_order_create_operation where
  seller : AccountId
  amount_to_sell : asset
  min_to_receive : asset
  expiration : Nat
  fill_or_kill : Bool
deriving DecidableEq, Repr

/-- `limit_order_create_operation::get_price()`: sell price as the ratio
amount-to-sell / min-to-receive (base = sell side, quote = receive side). -/
def limit_order_create_operation.get_price (op : limit_order_create_operation) : price :=
  ⟨op.amount_to_sell, op.min_to_receive⟩

/-- The wire payload of `limit_order_cancel_operation`. -/
structure limit_order_cancel_operation where
  fee_paying_account : AccountId
  order : OrderId
deriving DecidableEq, Repr

/-- The wire payload of `call_order_update_operation`. -/
structure call_order_update_operation where
  funding_account : AccountId
  delta_collateral : asset
  delta_debt : asset
deriving DecidableEq, Repr

/-- Validate phase of `limit_order_create_evaluator::do_apply` (the first
try block, lines 19-45): read-only precondition checks, in source order. -/
def limit_order_create_validate (d : Database) (op : limit_order_create_operation) : Except Err Unit :=
  if op.expiration < d.head_block_time then .error .expired
  else
    match alookup op.amount_to_sell.symbol d.asset_opts, alookup op.min_to_receive.symbol d.asset_opts with
    | some sellOpts, some _ =>
      if sellOpts.whitelist_markets ≠ [] ∧ op.min_to_receive.symbol ∉ sellOpts.whitelist_markets then
        .error .marketRestricted
      else if sellOpts.blacklist_markets ≠ [] ∧ op.min_to_receive.symbol ∈ sellOpts.blacklist_markets then
        .error .marketRestricted
      else if ¬ (isAuthorized d op.seller op.amount_to_sell.symbol = true) then
        .error .assetNotAuthorized
      else if ¬ (isAuthorized d op.seller op.min_to_receive.symbol = true) then
        .error .assetNotAuthorized
      else if getBal d op.seller op.amount_to_sell.symbol < op.amount_to_sell.amount then
        .error .insufficientBalance
      else .ok ()
    | _, _ => .error .assetMissing

/-- Execute phase of `limit_order_create_evaluator::do_apply` (the second
try block, lines 47-68).  The external matcher `apply_order` is modelled by
its reported result `filled`; when it reports the order fully filled it has
removed the order, otherwise the order is left as created. -/
def limit_order_create_execute (d : Database) (op : limit_order_create_operation)
    (deferred_fee : Int) (filled : Bool) : Except Err (Database × List ExtCall) :=
  -- modify(seller_stats): unconditional modify, increment only for the core asset
  let d1 : Database := { d with stats := aset op.seller (getStat d op.seller + (if op.amount_to_sell.symbol = STEEM_SYMBOL then op.amount_to_sell.amount else 0)) d.stats }
  -- adjust_balance(seller, -amount_to_sell)
  let d2 : Database := d1.adjust_balance op.seller ⟨-op.amount_to_sell.amount, op.amount_to_sell.symbol⟩
  -- create<limit_order_object>
  let oid : OrderId := d2.next_order_id
  let ord : limit_order_object :=
    { seller := op.seller
      for_sale := op.amount_to_sell.amount
      sell_price := op.get_price
      expiration := op.expiration
      deferred_fee := deferred_fee }
  let d3 : Database := { d2 with limit_orders := aset oid ord d2.limit_orders, next_order_id := oid + 1 }
  -- apply_order: may remove the new order as a side effect when fully matched
  let d4 : Database := if filled then { d3 with limit_orders := aremove oid d3.limit_orders } else d3
  if op.fill_or_kill ∧ ¬ (filled = true) then .error .fillOrKillFailed
  else .ok (d4, [ExtCall.applyOrder oid])

/-- `limit_order_create_evaluator::do_apply`: Validate then Execute. -/
def limit_order_create_do_apply (d : Database) (op : limit_order_create_operation)
    (deferred_fee : Int) (filled : Bool) : Except Err (Database × List ExtCall) :=
  match limit_order_create_validate d op with
  | .error e => .error e
  | .ok () => limit_order_create_execute d op deferred_fee filled

/-- Validate phase of `limit_order_cancel_evaluator::do_apply` (lines
73-79): the order must exist and be owned by the requesting account. -/
def limit_order_cancel_validate (d : Database) (o : limit_order_cancel_operation) : Except Err limit_order_object :=
  match alookup o.order d.limit_orders with
  | none => .error .orderNotFound
  | some ord => if ord.seller ≠ o.fee_paying_account then .error .notOwner else .ok ord

/-- Modelled from the spec: the Accessor primitive
`database::cancel_order(order, create_virtual_op)` — not part of this
source file.  It removes the order and, as part of cancellation, refunds
the remaining for-sale amount to the seller and adjusts the seller's
`total_core_in_orders` when the refunded asset is the core asset. -/
def cancel_order (d : Database) (oid : OrderId) (ord : limit_order_object) : Database :=
  let refund : asset := ord.amount_for_sale
  let d1 : Database := d.adjust_balance ord.seller refund
  let d2 : Database :=
    if refund.symbol = STEEM_SYMBOL then
      { d1 with stats := aset ord.seller (getStat d1 ord.seller - refund.amount) d1.stats }
    else d1
  { d2 with limit_orders := aremove oid d2.limit_orders }

/-- `limit_order_cancel_evaluator::do_apply` (lines 72-96): Validate, then
cancel without a virtual operation and re-run the liquidation check on both
assets of the cancelled order's price. -/
def limit_order_cancel_do_apply (d : Database) (o : limit_order_cancel_operation) : Except Err (Database × List ExtCall) :=
  match limit_order_cancel_validate d o with
  | .error e => .error e
  | .ok ord =>
    let baseSym := ord.sell_price.base.symbol
    let quoteSym := ord.sell_price.quote.symbol
    let d1 := cancel_order d o.order ord
    .ok (d1, [ExtCall.cancelOrder o.order false,
              ExtCall.checkCallOrders baseSym true,
              ExtCall.checkCallOrders quoteSym true])

/-- Validate phase of `call_order_update_evaluator::do_apply` (lines
99-137), in source order.  Nota bene: the debt pay-down balance check of
lines 122-127 compares `get_balance(...) >= o.delta_debt` — the balance
against the *signed* (negative) delta, exactly as the source does. -/
def call_order_update_validate (d : Database) (o : call_order_update_operation) : Except Err bitasset_data :=
  match alookup o.delta_debt.symbol d.bitassets with
  | none => .error .notCollateralizedAsset
  | some bd =>
    if bd.has_settlement then .error .settlementInProgress
    else if o.delta_collateral.symbol ≠ bd.short_backing_asset then .error .wrongCollateralAsset
    else if bd.is_prediction_market ∧ o.delta_collateral.amount ≠ o.delta_debt.amount then
      .error .predictionMarketMismatch
    else if ¬ bd.is_prediction_market ∧ price.is_null bd.current_feed.settlement_price then
      .error .noPriceFeed
    else if o.delta_debt.amount < 0 ∧
        ¬ (getBal d o.funding_account o.delta_debt.symbol ≥ o.delta_debt.amount) then
      .error .insufficientBalance
    else if o.delta_collateral.amount > 0 ∧
        ¬ (getBal d o.funding_account bd.short_backing_asset ≥ o.delta_collateral.amount) then
      .error .insufficientBalance
    else .ok bd

/-- Balance, supply and statistics deltas of the Execute phase (lines
142-161): debit/credit the funding account, adjust the debt asset's
current supply (with the in-modify `assert(current_supply >= 0)`), and
adjust `total_core_in_orders` when the collateral is the core asset. -/
def apply_deltas (d : Database) (o : call_order_update_operation) : Except Err Database :=
  let d1 : Database := if o.delta_debt.amount ≠ 0 then d.adjust_balance o.funding_account o.delta_debt else d
  let newSupply : Int := getSupply d1 o.delta_debt.symbol + o.delta_debt.amount
  let d2 : Database :=
    if o.delta_debt.amount ≠ 0 then
      { d1 with current_supply := aset o.delta_debt.symbol newSupply d1.current_supply }
    else d1
  if o.delta_debt.amount ≠ 0 ∧ newSupply < 0 then .error .fatalNegativeSupply
  else
    let d3 : Database :=
      if o.delta_collateral.amount ≠ 0 then
        d2.adjust_balance o.funding_account ⟨-o.delta_collateral.amount, o.delta_collateral.symbol⟩
      else d2
    let d4 : Database :=
      if o.delta_collateral.amount ≠ 0 ∧ o.delta_collateral.symbol = STEEM_SYMBOL then
        { d3 with stats := aset o.funding_account (getStat d3 o.funding_account + o.delta_collateral.amount) d3.stats }
      else d3
    .ok d4

/-- Outcome of updating the stored call position: either the position was
closed (debt reached zero, record removed), or it is still open with the
given stored record. -/
inductive PositionResult where
  | closed (d : Database)
  | stillOpen (d : Database) (call : call_order_object)
deriving DecidableEq, Repr

/-- The invariant checks of lines 193-200, run on the freshly written call
record: at zero debt the collateral must be zero and the record is removed
(early return); otherwise both debt and collateral must be strictly
positive. -/
def position_checks (d5 : Database) (key : AccountId × Symbol) (call : call_order_object) : Except Err PositionResult :=
  if call.debt = 0 then
    if call.collateral ≠ 0 then .error .fatalDebtZeroCollateralNonzero
    else .ok (.closed { d5 with call_orders := aremove key d5.call_orders })
  else if call.collateral > 0 ∧ call.debt > 0 then .ok (.stillOpen d5 call)
  else .error .fatalNonPositive

/-- The call-position branch of the Execute phase (lines 164-200): create a
new position (requiring both deltas strictly positive) or accumulate into
the existing one (recomputing `call_price` only when the resulting debt is
positive), then run the invariant checks. -/
def update_position (d4 : Database) (o : call_order_update_operation) (bd : bitasset_data) : Except Err PositionResult :=
  let key : AccountId × Symbol := (o.funding_account, o.delta_debt.symbol)
  let mcr : Nat := bd.current_feed.maintenance_collateral_ratio
  match alookup key d4.call_orders with
  | none =>
    if ¬ (o.delta_collateral.amount > 0) then .error .missingCallOrderRequiresPositiveCollateral
    else if ¬ (o.delta_debt.amount > 0) then .error .missingCallOrderRequiresPositiveDebt
    else
      let call : call_order_object :=
        { borrower := o.funding_account
          collateral := o.delta_collateral.amount
          debt := o.delta_debt.amount
          call_price := price.call_price o.delta_debt o.delta_collateral mcr }
      position_checks { d4 with call_orders := aset key call d4.call_orders } key call
  | some old =>
    let newColl : Int := old.collateral + o.delta_collateral.amount
    let newDebt : Int := old.debt + o.delta_debt.amount
    let call : call_order_object :=
      { old with
        collateral := newColl
        debt := newDebt
        call_price :=
          if newDebt > 0 then
            price.call_price ⟨newDebt, o.delta_debt.symbol⟩ ⟨newColl, o.delta_collateral.symbol⟩ mcr
          else old.call_price }
    position_checks { d4 with call_orders := aset key call d4.call_orders } key call

/-- The margin-call check of lines 202-232, for non-prediction-market
assets.  The external liquidation trigger `check_call_orders(debt_asset,
false)` is modelled by its reported result `trigFilled` and by whether it
removed the tracked call record (`trigRemoves`); its invocation, with
black swans disallowed, is recorded in the trace. -/
def margin_check (d5 : Database) (o : call_order_update_operation) (bd : bitasset_data)
    (trigFilled trigRemoves : Bool) : Except Err (Database × List ExtCall) :=
  let key : AccountId × Symbol := (o.funding_account, o.delta_debt.symbol)
  let d6 : Database := if trigRemoves then { d5 with call_orders := aremove key d5.call_orders } else d5
  let tr : List ExtCall := [ExtCall.checkCallOrders o.delta_debt.symbol false]
  if trigFilled then
    -- if we filled at least one call order, we are OK if we totally filled
    match alookup key d6.call_orders with
    | some _ => .error .unfilledMarginCall
    | none => .ok (d6, tr)
  else
    match alookup key d6.call_orders with
    | none => .error .callObjectDeletedWithoutFill
    | some c =>
      if price.lt (price.invert c.call_price) bd.current_feed.settlement_price then .ok (d6, tr)
      else .error .unfilledMarginCall

/-- Execute phase of `call_order_update_evaluator::do_apply` (lines
139-233): apply the balance/supply deltas, update the call position, and
for non-prediction-market assets run the margin-call check. -/
def call_order_update_execute (d : Database) (o : call_order_update_operation) (bd : bitasset_data)
    (trigFilled trigRemoves : Bool) : Except Err (Database × List ExtCall) :=
  match apply_deltas d o with
  | .error e => .error e
  | .ok d4 =>
    match update_position d4 o bd with
    | .error e => .error e
    | .ok (.closed d6) => .ok (d6, [])
    | .ok (.stillOpen d5 _) =>
      if bd.is_prediction_market then .ok (d5, [])
      else margin_check d5 o bd trigFilled trigRemoves

/-- `call_order_update_evaluator::do_apply`: Validate then Execute. -/
def call_order_update_do_apply (d : Database) (o : call_order_update_operation)
    (trigFilled trigRemoves : Bool) : Except Err (Database × List ExtCall) :=
  match call_order_update_validate d o with
  | .error e => .error e
  | .ok bd => call_order_update_execute d o bd trigFilled trigRemoves

/-- The empty ledger, used as the junk value when projecting a state out of
a failed evaluation. -/
def emptyDb : Database :=
  { head_block_time := 0
    balances := []
    stats := []
    asset_opts := []
    bitassets := []
    authorizations := []
    current_supply := []
    limit_orders := []
    next_order_id := 0
    call_orders := [] }

/-- The resulting ledger state of a successful evaluation (`emptyDb` for a
failed one). -/
def stateOf (r : Except Err (Database × List ExtCall)) : Database :=
  match r with
  | .ok (d, _) => d
  | .error _ => emptyDb

/-- The trace of external calls of a successful evaluation. -/
def traceOf (r : Except Err (Database × List ExtCall)) : List ExtCall :=
  match r with
  | .ok (_, t) => t
  | .error _ => []

/-- Whether an evaluation succeeded. -/
def isOk (r : Except Err (Database × List ExtCall)) : Bool :=
  match r with
  | .ok _ => true
  | .error _ => false

/-! ### Concrete fixtures used by the witness theorems -/

/-- An asset with no market restrictions. -/
def optsPlain : asset_options := ⟨[], []⟩

/-- A ledger with one account (id 1) holding 100 of the core asset, and two
unrestricted assets (symbols 0 and 1). -/
def dbLimit : Database :=
  { emptyDb with
    balances := [((1, 0), 100)]
    asset_opts := [(0, optsPlain), (1, optsPlain)] }

/-- Sell 100 core for at least 50 of asset 1, no fill-or-kill. -/
def opSell : limit_order_create_operation :=
  { seller := 1
    amount_to_sell := ⟨100, 0⟩
    min_to_receive := ⟨50, 1⟩
    expiration := 10
    fill_or_kill := false }

/-- Sell 7 of asset 1 for at least 3 of asset 0 (a non-core sell asset). -/
def dbLimit2 : Database :=
  { emptyDb with
    balances := [((1, 1), 7)]
    asset_opts := [(0, optsPlain), (1, optsPlain)] }

/-- The non-core sale used by the frame-effect witness. -/
def opSell2 : limit_order_create_operation :=
  { seller := 1
    amount_to_sell := ⟨7, 1⟩
    min_to_receive := ⟨3, 0⟩
    expiration := 10
    fill_or_kill := false }

/-- A resting order (id 0) of account 1 selling 40 core for asset 1. -/
def ordResting : limit_order_object :=
  { seller := 1
    for_sale := 40
    sell_price := ⟨⟨100, 0⟩, ⟨50, 1⟩⟩
    expiration := 10
    deferred_fee := 0 }

/-- A ledger holding `ordResting` in the order book. -/
def dbCancel : Database :=
  { emptyDb with
    balances := [((1, 0), 0)]
    stats := [(1, 40)]
    limit_orders := [(0, ordResting)] }

/-- A published feed for asset 2: settlement price 1 unit of asset 2 per
1 core, maintenance collateral ratio 1.75. -/
def feedCall : price_feed :=
  { settlement_price := ⟨⟨1, 2⟩, ⟨1, 0⟩⟩
    maintenance_collateral_ratio := 1750 }

/-- Asset 2 as a market-issued asset backed by the core asset, not a
prediction market, not under settlement. -/
def bdCall : bitasset_data :=
  { is_prediction_market := false
    short_backing_asset := 0
    current_feed := feedCall
    has_settlement := false }

/-- A ledger where account 1 holds 1000 core and 5 of debt asset 2, whose
current supply is 20. -/
def dbCall : Database :=
  { emptyDb with
    balances := [((1, 0), 1000), ((1, 2), 5)]
    bitassets := [(2, bdCall)]
    current_supply := [(2, 20)] }

/-- Open a new position: borrow 10 of asset 2 against 200 core. -/
def opBorrow : call_order_update_operation :=
  { funding_account := 1
    delta_collateral := ⟨200, 0⟩
    delta_debt := ⟨10, 2⟩ }

/-- An existing position of account 1: debt 20 of asset 2 against 1000 core. -/
def ordCall : call_order_object :=
  { borrower := 1
    collateral := 1000
    debt := 20
    call_price := price.call_price ⟨20, 2⟩ ⟨1000, 0⟩ 1750 }

/-- `dbCall` with the open position `ordCall` on the books. -/
def dbCover : Database :=
  { dbCall with call_orders := [((1, 2), ordCall)] }

/-- Pay down 10 of debt asset 2 — more than the funding account's balance
of 5. -/
def opCover : call_order_update_operation :=
  { funding_account := 1
    delta_collateral := ⟨0, 0⟩
    delta_debt := ⟨-10, 2⟩ }

/-- Pay down 30 of debt asset 2 — more than the asset's current supply
of 20. -/
def opOverCover : call_order_update_operation :=
  { funding_account := 1
    delta_collateral := ⟨0, 0⟩
    delta_debt := ⟨-30, 2⟩ }

/-! ### Stage lemmas for the call-order-update Execute phase -/

theorem agetD_aset_self {κ ν : Type} [DecidableEq κ] (k : κ) (v d₀ : ν) (m : List (κ × ν)) :
    agetD k d₀ (aset k v m) = v := by
  simp [agetD, alookup_aset_self]

theorem agetD_aset_ne {κ ν : Type} [DecidableEq κ] (k k' : κ) (v d₀ : ν) (m : List (κ × ν))
    (h : k' ≠ k) : agetD k' d₀ (aset k v m) = agetD k' d₀ m := by
  simp [agetD, alookup_aset_ne _ _ _ _ h]

theorem adjust_balance_current_supply (d : Database) (a : AccountId) (x : asset) :
    (d.adjust_balance a x).current_supply = d.current_supply := rfl

theorem adjust_balance_stats (d : Database) (a : AccountId) (x : asset) :
    (d.adjust_balance a x).stats = d.stats := rfl

theorem adjust_balance_call_orders (d : Database) (a : AccountId) (x : asset) :
    (d.adjust_balance a x).call_orders = d.call_orders := rfl

theorem getBal_adjust_balance_self (d : Database) (a : AccountId) (x : asset) :
    getBal (d.adjust_balance a x) a x.symbol = getBal d a x.symbol + x.amount := by
  simp [getBal, Database.adjust_balance, agetD_aset_self]

theorem getBal_adjust_balance_ne (d : Database) (a a' : AccountId) (s : Symbol) (x : asset)
    (h : (a', s) ≠ (a, x.symbol)) :
    getBal (d.adjust_balance a x) a' s = getBal d a' s := by
  simp [getBal, Database.adjust_balance]
  exact agetD_aset_ne _ _ _ _ _ h

/-- A successful `apply_deltas` leaves the call-order book untouched; the
supply of the debt asset moves by delta-debt exactly when that delta is
nonzero (and remains non-negative); statistics move only on a nonzero
collateral delta; and a balance whose asset matches neither active delta is
unchanged. -/
theorem apply_deltas_ok (d : Database) (o : call_order_update_operation) (d4 : Database)
    (h : apply_deltas d o = .ok d4) :
    d4.call_orders = d.call_orders ∧
    (o.delta_debt.amount = 0 → d4.current_supply = d.current_supply) ∧
    (o.delta_debt.amount ≠ 0 →
      getSupply d4 o.delta_debt.symbol = getSupply d o.delta_debt.symbol + o.delta_debt.amount ∧
      0 ≤ getSupply d o.delta_debt.symbol + o.delta_debt.amount) ∧
    (o.delta_collateral.amount = 0 → d4.stats = d.stats) ∧
    (∀ a s, (s ≠ o.delta_debt.symbol ∨ o.delta_debt.amount = 0) →
      (s ≠ o.delta_collateral.symbol ∨ o.delta_collateral.amount = 0) →
      getBal d4 a s = getBal d a s) := by
  simp only [apply_deltas, adjust_balance_current_supply, getSupply] at h
  by_cases hd : o.delta_debt.amount = 0
  · simp only [hd, ne_eq, not_true_eq_false, if_false, false_and, ite_false] at h
    by_cases hc : o.delta_collateral.amount = 0
    · simp only [hc, ne_eq, not_true_eq_false, if_false, false_and, ite_false,
        Except.ok.injEq] at h
      subst h
      exact ⟨rfl, fun _ => rfl, fun hn => absurd hd hn, fun _ => rfl, fun a s _ _ => rfl⟩
    · simp only [hc, ne_eq, not_false_eq_true, if_true, true_and, ite_true,
        Except.ok.injEq] at h
      by_cases hst : o.delta_collateral.symbol = STEEM_SYMBOL
      · rw [if_pos hst] at h
        subst h
        refine ⟨rfl, fun _ => rfl, fun hn => absurd hd hn, fun h0 => absurd h0 hc, ?_⟩
        intro a s g1 g2
        have hs2 : s ≠ o.delta_collateral.symbol := g2.resolve_right hc
        show getBal (Database.adjust_balance d o.funding_account
          ⟨-o.delta_collateral.amount, o.delta_collateral.symbol⟩) a s = getBal d a s
        exact getBal_adjust_balance_ne _ _ _ _ _ (fun hp => hs2 (congrArg Prod.snd hp))
      · rw [if_neg hst] at h
        subst h
        refine ⟨rfl, fun _ => rfl, fun hn => absurd hd hn, fun h0 => absurd h0 hc, ?_⟩
        intro a s g1 g2
        have hs2 : s ≠ o.delta_collateral.symbol := g2.resolve_right hc
        exact getBal_adjust_balance_ne _ _ _ _ _ (fun hp => hs2 (congrArg Prod.snd hp))
  · simp only [hd, ne_eq, not_false_eq_true, if_true, true_and, ite_true,
      adjust_balance_current_supply] at h
    by_cases hs : agetD o.delta_debt.symbol 0 d.current_supply + o.delta_debt.amount < 0
    · rw [if_pos hs] at h
      exact absurd h (by simp)
    · rw [if_neg hs] at h
      have hbalD : ∀ a s, s ≠ o.delta_debt.symbol →
          getBal (Database.adjust_balance d o.funding_account o.delta_debt) a s = getBal d a s :=
        fun a s hne =>
          getBal_adjust_balance_ne _ _ _ _ _ (fun hp => hne (congrArg Prod.snd hp))
      by_cases hc : o.delta_collateral.amount = 0
      · simp only [hc, ne_eq, not_true_eq_false, if_false, false_and, ite_false,
          Except.ok.injEq] at h
        subst h
        refine ⟨rfl, fun h0 => absurd h0 hd, fun _ => ?_, fun _ => rfl, ?_⟩
        · constructor
          · simp [getSupply, agetD_aset_self]
          · simpa [getSupply] using le_of_not_lt hs
        · intro a s g1 g2
          have hs1 : s ≠ o.delta_debt.symbol := g1.resolve_right hd
          show getBal { Database.adjust_balance d o.funding_account o.delta_debt with
            current_supply := aset o.delta_debt.symbol
              (agetD o.delta_debt.symbol 0 d.current_supply + o.delta_debt.amount)
              d.current_supply } a s = getBal d a s
          rw [show getBal { Database.adjust_balance d o.funding_account o.delta_debt with
            current_supply := aset o.delta_debt.symbol
              (agetD o.delta_debt.symbol 0 d.current_supply + o.delta_debt.amount)
              d.current_supply } a s
            = getBal (Database.adjust_balance d o.funding_account o.delta_debt) a s from rfl]
          exact hbalD a s hs1
      · simp only [hc, ne_eq, not_false_eq_true, if_true, true_and, ite_true,
          Except.ok.injEq] at h
        by_cases hst : o.delta_collateral.symbol = STEEM_SYMBOL
        · rw [if_pos hst] at h
          subst h
          refine ⟨rfl, fun h0 => absurd h0 hd, fun _ => ?_, fun h0 => absurd h0 hc, ?_⟩
          · constructor
            · simp [getSupply, agetD_aset_self, Database.adjust_balance]
            · simpa [getSupply] using le_of_not_lt hs
          · intro a s g1 g2
            have hs1 : s ≠ o.delta_debt.symbol := g1.resolve_right hd
            have hs2 : s ≠ o.delta_collateral.symbol := g2.resolve_right hc
            have step1 : getBal (Database.adjust_balance
                { Database.adjust_balance d o.funding_account o.delta_debt with
                  current_supply := aset o.delta_debt.symbol
                    (agetD o.delta_debt.symbol 0 d.current_supply + o.delta_debt.amount)
                    d.current_supply }
                o.funding_account ⟨-o.delta_collateral.amount, o.delta_collateral.symbol⟩) a s
              = getBal (Database.adjust_balance d o.funding_account o.delta_debt) a s :=
              getBal_adjust_balance_ne _ o.funding_account a s
                ⟨-o.delta_collateral.amount, o.delta_collateral.symbol⟩
                (fun hp => hs2 (congrArg Prod.snd hp))
            exact step1.trans (hbalD a s hs1)
        · rw [if_neg hst] at h
          subst h
          refine ⟨rfl, fun h0 => absurd h0 hd, fun _ => ?_, fun h0 => absurd h0 hc, ?_⟩
          · constructor
            · simp [getSupply, agetD_aset_self, Database.adjust_balance]
            · simpa [getSupply] using le_of_not_lt hs
          · intro a s g1 g2
            have hs1 : s ≠ o.delta_debt.symbol := g1.resolve_right hd
            have hs2 : s ≠ o.delta_collateral.symbol := g2.resolve_right hc
            have step1 : getBal (Database.adjust_balance
                { Database.adjust_balance d o.funding_account o.delta_debt with
                  current_supply := aset o.delta_debt.symbol
                    (agetD o.delta_debt.symbol 0 d.current_supply + o.delta_debt.amount)
                    d.current_supply }
                o.funding_account ⟨-o.delta_collateral.amount, o.delta_collateral.symbol⟩) a s
              = getBal (Database.adjust_balance d o.funding_account o.delta_debt) a s :=
              getBal_adjust_balance_ne _ o.funding_account a s
                ⟨-o.delta_collateral.amount, o.delta_collateral.symbol⟩
                (fun hp => hs2 (congrArg Prod.snd hp))
            exact step1.trans (hbalD a s hs1)

/-- A successful `update_position` that leaves the position open has
written the open record at the (account, debt-asset) key, with strictly
positive debt and collateral, with `call_price` the image of the stored
debt and collateral under the Price/Collateral Math function, and without
touching balances, supply or statistics. -/
theorem update_position_stillOpen (d4 : Database) (o : call_order_update_operation)
    (bd : bitasset_data) (d5 : Database) (call : call_order_object)
    (h : update_position d4 o bd = .ok (.stillOpen d5 call)) :
    alookup (o.funding_account, o.delta_debt.symbol) d5.call_orders = some call ∧
    0 < call.debt ∧ 0 < call.collateral ∧
    call.call_price = price.call_price ⟨call.debt, o.delta_debt.symbol⟩
      ⟨call.collateral, o.delta_collateral.symbol⟩ bd.current_feed.maintenance_collateral_ratio ∧
    d5.balances = d4.balances ∧ d5.current_supply = d4.current_supply ∧ d5.stats = d4.stats := by
  simp only [update_position] at h
  cases hl : alookup (o.funding_account, o.delta_debt.symbol) d4.call_orders with
  | none =>
    rw [hl] at h
    by_cases h1 : o.delta_collateral.amount > 0
    · by_cases h2 : o.delta_debt.amount > 0
      · rw [if_neg (not_not_intro h1), if_neg (not_not_intro h2)] at h
        simp only [position_checks] at h
        rw [if_neg (by omega : ¬ (o.delta_debt.amount = 0)), if_pos ⟨h1, h2⟩,
          Except.ok.injEq, PositionResult.stillOpen.injEq] at h
        obtain ⟨hd, hc⟩ := h
        subst hd
        subst hc
        exact ⟨alookup_aset_self _ _ _, h2, h1, rfl, rfl, rfl, rfl⟩
      · rw [if_neg (not_not_intro h1), if_pos h2] at h
        exact absurd h (by simp)
    · rw [if_pos h1] at h
      exact absurd h (by simp)
  | some old =>
    rw [hl] at h
    simp only [position_checks] at h
    by_cases h3 : old.debt + o.delta_debt.amount = 0
    · rw [if_pos h3] at h
      by_cases h4 : old.collateral + o.delta_collateral.amount ≠ 0
      · rw [if_pos h4] at h
        exact absurd h (by simp)
      · rw [if_neg h4] at h
        exact absurd h (by simp)
    · rw [if_neg h3] at h
      by_cases h4 : old.collateral + o.delta_collateral.amount > 0 ∧ old.debt + o.delta_debt.amount > 0
      · rw [if_pos h4, Except.ok.injEq, PositionResult.stillOpen.injEq] at h
        obtain ⟨hd, hc⟩ := h
        subst hd
        subst hc
        refine ⟨alookup_aset_self _ _ _, h4.2, h4.1, ?_, rfl, rfl, rfl⟩
        simp [h4.2]
      · rw [if_neg h4] at h
        exact absurd h (by simp)

/-- A successful `update_position` that closed the position has removed the
record at the (account, debt-asset) key, without touching balances, supply
or statistics. -/
theorem update_position_closed (d4 : Database) (o : call_order_update_operation)
    (bd : bitasset_data) (d6 : Database)
    (h : update_position d4 o bd = .ok (.closed d6)) :
    alookup (o.funding_account, o.delta_debt.symbol) d6.call_orders = none ∧
    d6.balances = d4.balances ∧ d6.current_supply = d4.current_supply ∧ d6.stats = d4.stats := by
  simp only [update_position] at h
  cases hl : alookup (o.funding_account, o.delta_debt.symbol) d4.call_orders with
  | none =>
    rw [hl] at h
    by_cases h1 : o.delta_collateral.amount > 0
    · by_cases h2 : o.delta_debt.amount > 0
      · rw [if_neg (not_not_intro h1), if_neg (not_not_intro h2)] at h
        simp only [position_checks] at h
        rw [if_neg (by omega : ¬ (o.delta_debt.amount = 0)), if_pos ⟨h1, h2⟩] at h
        exact absurd h (by simp)
      · rw [if_neg (not_not_intro h1), if_pos h2] at h
        exact absurd h (by simp)
    · rw [if_pos h1] at h
      exact absurd h (by simp)
  | some old =>
    rw [hl] at h
    simp only [position_checks] at h
    by_cases h3 : old.debt + o.delta_debt.amount = 0
    · rw [if_pos h3] at h
      by_cases h4 : old.collateral + o.delta_collateral.amount ≠ 0
      · rw [if_pos h4] at h
        exact absurd h (by simp)
      · rw [if_neg h4, Except.ok.injEq, PositionResult.closed.injEq] at h
        subst h
        exact ⟨alookup_aremove_self _ _, rfl, rfl, rfl⟩
    · rw [if_neg h3] at h
      by_cases h4 : old.collateral + o.delta_collateral.amount > 0 ∧ old.debt + o.delta_debt.amount > 0
      · rw [if_pos h4] at h
        exact absurd h (by simp)
      · rw [if_neg h4] at h
        exact absurd h (by simp)

/-- A successful `margin_check` leaves balances, supply and statistics
untouched, and any record still stored at the (account, debt-asset) key was
already stored there before the check. -/
theorem margin_check_ok (d5 : Database) (o : call_order_update_operation) (bd : bitasset_data)
    (tf trR : Bool) (d' : Database) (tr : List ExtCall)
    (h : margin_check d5 o bd tf trR = .ok (d', tr)) :
    d'.balances = d5.balances ∧ d'.current_supply = d5.current_supply ∧ d'.stats = d5.stats ∧
    (∀ c, alookup (o.funding_account, o.delta_debt.symbol) d'.call_orders = some c →
      alookup (o.funding_account, o.delta_debt.symbol) d5.call_orders = some c) := by
  simp only [margin_check] at h
  cases trR with
  | true =>
    simp only [if_true, alookup_aremove_self] at h
    cases tf with
    | true =>
      simp only [if_true] at h
      rw [Except.ok.injEq, Prod.mk.injEq] at h
      obtain ⟨hd, -⟩ := h
      subst hd
      refine ⟨rfl, rfl, rfl, ?_⟩
      intro c hc
      rw [alookup_aremove_self] at hc
      exact absurd hc (by simp)
    | false =>
      simp only [Bool.false_eq_true, if_false] at h
      exact absurd h (by simp)
  | false =>
    simp only [Bool.false_eq_true, if_false] at h
    cases tf with
    | true =>
      simp only [if_true] at h
      cases hl : alookup (o.funding_account, o.delta_debt.symbol) d5.call_orders with
      | some c =>
        simp only [hl] at h
        exact absurd h (by simp)
      | none =>
        simp only [hl] at h
        rw [Except.ok.injEq, Prod.mk.injEq] at h
        obtain ⟨hd, -⟩ := h
        subst hd
        exact ⟨rfl, rfl, rfl, fun c hc => hl ▸ hc⟩
    | false =>
      simp only [Bool.false_eq_true, if_false] at h
      cases hl : alookup (o.funding_account, o.delta_debt.symbol) d5.call_orders with
      | none =>
        simp only [hl] at h
        exact absurd h (by simp)
      | some c =>
        simp only [hl] at h
        by_cases hp : price.lt (price.invert c.call_price) bd.current_feed.settlement_price = true
        · rw [if_pos hp, Except.ok.injEq, Prod.mk.injEq] at h
          obtain ⟨hd, -⟩ := h
          subst hd
          exact ⟨rfl, rfl, rfl, fun c hc => hl ▸ hc⟩
        · rw [if_neg hp] at h
          exact absurd h (by simp)

/-- The ledger state carried by a still-open position result (`emptyDb`
otherwise). -/
def stillOpenState (r : Except Err PositionResult) : Database :=
  match r with
  | .ok (.stillOpen d _) => d
  | _ => emptyDb

/-- The call record carried by a still-open position result (a zeroed
record otherwise). -/
def stillOpenCall (r : Except Err PositionResult) : call_order_object :=
  match r with
  | .ok (.stillOpen _ c) => c
  | _ => ⟨0, 0, 0, ⟨⟨0, 0⟩, ⟨0, 0⟩⟩⟩

/-- The state delivered by a successful `apply_deltas` (`emptyDb`
otherwise). -/
def deltasOf (d : Database) (o : call_order_update_operation) : Database :=
  match apply_deltas d o with
  | .ok d4 => d4
  | .error _ => emptyDb

/-- A successful `call_order_update_do_apply` decomposes into a successful
Validate phase, successful deltas, and either a closed position (no
margin check) or a still-open one followed — for non-prediction-market
assets — by the margin check. -/
theorem do_apply_ok_cases (d : Database) (o : call_order_update_operation) (tf trR : Bool)
    (d' : Database) (tr : List ExtCall)
    (h : call_order_update_do_apply d o tf trR = .ok (d', tr)) :
    ∃ bd d4, call_order_update_validate d o = .ok bd ∧ apply_deltas d o = .ok d4 ∧
      ((∃ d6, update_position d4 o bd = .ok (.closed d6) ∧ d' = d6 ∧ tr = []) ∨
       (∃ d5 call, update_position d4 o bd = .ok (.stillOpen d5 call) ∧
         ((bd.is_prediction_market = true ∧ d' = d5 ∧ tr = []) ∨
          (bd.is_prediction_market = false ∧ margin_check d5 o bd tf trR = .ok (d', tr))))) := by
  simp only [call_order_update_do_apply] at h
  cases hv : call_order_update_validate d o with
  | error e =>
    simp only [hv] at h
    exact absurd h (by simp)
  | ok bd =>
    simp only [hv, call_order_update_execute] at h
    cases ha : apply_deltas d o with
    | error e =>
      simp only [ha] at h
      exact absurd h (by simp)
    | ok d4 =>
      simp only [ha] at h
      cases hu : update_position d4 o bd with
      | error e =>
        simp only [hu] at h
        exact absurd h (by simp)
      | ok pr =>
        cases pr with
        | closed d6 =>
          simp only [hu] at h
          rw [Except.ok.injEq, Prod.mk.injEq] at h
          exact ⟨bd, d4, rfl, rfl, Or.inl ⟨d6, hu, h.1.symm, h.2.symm⟩⟩
        | stillOpen d5 call =>
          simp only [hu] at h
          cases hpm : bd.is_prediction_market with
          | true =>
            rw [if_pos hpm, Except.ok.injEq, Prod.mk.injEq] at h
            exact ⟨bd, d4, rfl, rfl,
              Or.inr ⟨d5, call, hu, Or.inl ⟨hpm, h.1.symm, h.2.symm⟩⟩⟩
          | false =>
            rw [if_neg (by simp [hpm])] at h
            exact ⟨bd, d4, rfl, rfl, Or.inr ⟨d5, call, hu, Or.inr ⟨hpm, h⟩⟩⟩

theorem call_order_update_validate_error (d : Database) (o : call_order_update_operation)
    (e : Err) (h : call_order_update_validate d o = .error e) :
    e ≠ .fatalNegativeSupply := by
  simp only [call_order_update_validate] at h
  split at h
  · rw [Except.error.injEq] at h
    subst h
    decide
  · repeat' split at h
    all_goals first
      | (rw [Except.error.injEq] at h; subst h; decide)
      | exact absurd h (by simp)

theorem apply_deltas_error (d : Database) (o : call_order_update_operation)
    (e : Err) (h : apply_deltas d o = .error e) :
    e = .fatalNegativeSupply ∧ o.delta_debt.amount ≠ 0 ∧
    getSupply d o.delta_debt.symbol + o.delta_debt.amount < 0 := by
  by_cases hd : o.delta_debt.amount = 0
  · simp only [apply_deltas, hd, ne_eq, not_true_eq_false, if_false, false_and, ite_false] at h
    exact absurd h (by simp)
  · simp only [apply_deltas, hd, ne_eq, not_false_eq_true, if_true, true_and, ite_true,
      getSupply, adjust_balance_current_supply] at h
    by_cases hs : agetD o.delta_debt.symbol 0 d.current_supply + o.delta_debt.amount < 0
    · rw [if_pos hs, Except.error.injEq] at h
      subst h
      exact ⟨rfl, hd, by simpa [getSupply] using hs⟩
    · rw [if_neg hs] at h
      exact absurd h (by simp)

theorem update_position_error (d4 : Database) (o : call_order_update_operation)
    (bd : bitasset_data) (e : Err) (h : update_position d4 o bd = .error e) :
    e ≠ .fatalNegativeSupply := by
  simp only [update_position, position_checks] at h
  split at h
  all_goals repeat' split at h
  all_goals first
    | (rw [Except.error.injEq] at h; subst h; decide)
    | exact absurd h (by simp)

theorem margin_check_error (d5 : Database) (o : call_order_update_operation)
    (bd : bitasset_data) (tf trR : Bool) (e : Err)
    (h : margin_check d5 o bd tf trR = .error e) :
    e ≠ .fatalNegativeSupply := by
  simp only [margin_check] at h
  split at h
  all_goals repeat' split at h
  all_goals first
    | (rw [Except.error.injEq] at h; subst h; decide)
    | exact absurd h (by simp)

/-! ### Claim theorems: limit orders -/

/-- C5: for every limit-order-create operation that succeeds, the Execute
phase decreases the seller's sell-asset balance by exactly amount-to-sell,
and when the sell asset is the native asset it increases the seller's
`total_core_in_orders` statistic by exactly the same amount. -/
theorem limit_order_create_balance_effect (d : Database) (op : limit_order_create_operation)
    (fee : Int) (filled : Bool) (d' : Database) (tr : List ExtCall)
    (h : limit_order_create_do_apply d op fee filled = .ok (d', tr)) :
    getBal d' op.seller op.amount_to_sell.symbol
      = getBal d op.seller op.amount_to_sell.symbol - op.amount_to_sell.amount ∧
    (op.amount_to_sell.symbol = STEEM_SYMBOL →
      getStat d' op.seller = getStat d op.seller + op.amount_to_sell.amount) := by
  unfold limit_order_create_do_apply at h
  cases hv : limit_order_create_validate d op with
  | error e => rw [hv] at h; exact absurd h (by simp)
  | ok u =>
    rw [hv] at h
    by_cases hk : op.fill_or_kill = true ∧ ¬ (filled = true)
    · simp [limit_order_create_execute, hk] at h
    · simp only [limit_order_create_execute] at h
      rw [if_neg hk, Except.ok.injEq, Prod.mk.injEq] at h
      obtain ⟨hd, -⟩ := h
      subst hd
      constructor
      · cases filled <;>
          simp [getBal, getStat, Database.adjust_balance, agetD, alookup_aset_self] <;>
          omega
      · intro hsym
        cases filled <;>
          simp [hsym, getStat, getBal, Database.adjust_balance, agetD, alookup_aset_self]

/-- C5 witness: the theorem applied to the concrete sale `opSell` on
`dbLimit`, where the matcher reports no fill. -/
theorem limit_order_create_balance_effect_witness :
    getBal (stateOf (limit_order_create_do_apply dbLimit opSell 0 false)) opSell.seller opSell.amount_to_sell.symbol
      = getBal dbLimit opSell.seller opSell.amount_to_sell.symbol - opSell.amount_to_sell.amount ∧
    (opSell.amount_to_sell.symbol = STEEM_SYMBOL →
      getStat (stateOf (limit_order_create_do_apply dbLimit opSell 0 false)) opSell.seller
        = getStat dbLimit opSell.seller + opSell.amount_to_sell.amount) :=
  limit_order_create_balance_effect dbLimit opSell 0 false
    (stateOf (limit_order_create_do_apply dbLimit opSell 0 false))
    (traceOf (limit_order_create_do_apply dbLimit opSell 0 false)) (by rfl)

/-- C6: with fill-or-kill set, a validated limit-order-create succeeds
exactly when the matcher reports the order fully filled, and fails with
`FillOrKillFailed` otherwise; with the flag unset any fill outcome is
accepted. -/
theorem limit_order_create_fill_or_kill (d : Database) (op : limit_order_create_operation)
    (fee : Int) (filled : Bool)
    (h : limit_order_create_validate d op = .ok ()) :
    (op.fill_or_kill = true →
      (isOk (limit_order_create_do_apply d op fee filled) = true ↔ filled = true) ∧
      (filled = false →
        limit_order_create_do_apply d op fee filled = .error .fillOrKillFailed)) ∧
    (op.fill_or_kill = false →
      isOk (limit_order_create_do_apply d op fee filled) = true) := by
  constructor
  · intro hk
    constructor
    · cases filled <;>
        simp [limit_order_create_do_apply, h, limit_order_create_execute, hk, isOk]
    · intro hf
      subst hf
      simp [limit_order_create_do_apply, h, limit_order_create_execute, hk, isOk]
  · intro hk
    simp [limit_order_create_do_apply, h, limit_order_create_execute, hk, isOk]

/-- C6 witness: the theorem applied to `opSell` with fill-or-kill set, on
`dbLimit`, with the matcher reporting no fill. -/
theorem limit_order_create_fill_or_kill_witness :
    (({ opSell with fill_or_kill := true } : limit_order_create_operation).fill_or_kill = true →
      (isOk (limit_order_create_do_apply dbLimit { opSell with fill_or_kill := true } 0 false) = true ↔ false = true) ∧
      (false = false →
        limit_order_create_do_apply dbLimit { opSell with fill_or_kill := true } 0 false = .error .fillOrKillFailed)) ∧
    (({ opSell with fill_or_kill := true } : limit_order_create_operation).fill_or_kill = false →
      isOk (limit_order_create_do_apply dbLimit { opSell with fill_or_kill := true } 0 false) = true) :=
  limit_order_create_fill_or_kill dbLimit { opSell with fill_or_kill := true } 0 false (by rfl)

/-- C7: cancelling an order one does not own fails with `NotOwner`;
cancelling one's own order removes it, emits no matching notification
(`create_virtual_op = false`), and re-invokes the liquidation-check
trigger on both the base and the quote asset of the order's price. -/
theorem limit_order_cancel_behavior (d : Database) (o : limit_order_cancel_operation)
    (ord : limit_order_object) (h : alookup o.order d.limit_orders = some ord) :
    (ord.seller ≠ o.fee_paying_account →
      limit_order_cancel_do_apply d o = .error .notOwner) ∧
    (ord.seller = o.fee_paying_account →
      isOk (limit_order_cancel_do_apply d o) = true ∧
      alookup o.order (stateOf (limit_order_cancel_do_apply d o)).limit_orders = none ∧
      traceOf (limit_order_cancel_do_apply d o)
        = [ExtCall.cancelOrder o.order false,
           ExtCall.checkCallOrders ord.sell_price.base.symbol true,
           ExtCall.checkCallOrders ord.sell_price.quote.symbol true]) := by
  constructor
  · intro hne
    simp [limit_order_cancel_do_apply, limit_order_cancel_validate, h, hne]
  · intro heq
    refine ⟨?_, ?_, ?_⟩ <;>
      simp [limit_order_cancel_do_apply, limit_order_cancel_validate, h, heq, isOk,
            stateOf, traceOf, cancel_order, Database.adjust_balance, alookup_aremove_self]

/-- C7 witness: the theorem applied to the resting order of `dbCancel`,
cancelled once by a non-owner (account 2) and once by its owner
(account 1). -/
theorem limit_order_cancel_behavior_witness :
    (limit_order_cancel_do_apply dbCancel ⟨2, 0⟩ = .error .notOwner) ∧
    (isOk (limit_order_cancel_do_apply dbCancel ⟨1, 0⟩) = true ∧
      alookup 0 (stateOf (limit_order_cancel_do_apply dbCancel ⟨1, 0⟩)).limit_orders = none ∧
      traceOf (limit_order_cancel_do_apply dbCancel ⟨1, 0⟩)
        = [ExtCall.cancelOrder 0 false,
           ExtCall.checkCallOrders ordResting.sell_price.base.symbol true,
           ExtCall.checkCallOrders ordResting.sell_price.quote.symbol true]) :=
  ⟨(limit_order_cancel_behavior dbCancel ⟨2, 0⟩ ordResting (by rfl)).1 (by decide),
   (limit_order_cancel_behavior dbCancel ⟨1, 0⟩ ordResting (by rfl)).2 (by rfl)⟩

/-- C10: when the sell asset is not the native asset, a successful
limit-order-create leaves the seller's `total_core_in_orders` statistic
unchanged, although the statistics record is passed through the modify
primitive unconditionally. -/
theorem limit_order_create_noncore_stats_frame (d : Database) (op : limit_order_create_operation)
    (fee : Int) (filled : Bool) (d' : Database) (tr : List ExtCall)
    (hsym : op.amount_to_sell.symbol ≠ STEEM_SYMBOL)
    (h : limit_order_create_do_apply d op fee filled = .ok (d', tr)) :
    getStat d' op.seller = getStat d op.seller := by
  unfold limit_order_create_do_apply at h
  cases hv : limit_order_create_validate d op with
  | error e => rw [hv] at h; exact absurd h (by simp)
  | ok u =>
    rw [hv] at h
    by_cases hk : op.fill_or_kill = true ∧ ¬ (filled = true)
    · simp [limit_order_create_execute, hk] at h
    · simp only [limit_order_create_execute] at h
      rw [if_neg hk, Except.ok.injEq, Prod.mk.injEq] at h
      obtain ⟨hd, -⟩ := h
      subst hd
      cases filled <;>
        simp [hsym, getStat, getBal, Database.adjust_balance, agetD, alookup_aset_self]

/-- C10 witness: the theorem applied to the non-core sale `opSell2` on
`dbLimit2`. -/
theorem limit_order_create_noncore_stats_frame_witness :
    getStat (stateOf (limit_order_create_do_apply dbLimit2 opSell2 0 false)) opSell2.seller
      = getStat dbLimit2 opSell2.seller :=
  limit_order_create_noncore_stats_frame dbLimit2 opSell2 0 false
    (stateOf (limit_order_create_do_apply dbLimit2 opSell2 0 false))
    (traceOf (limit_order_create_do_apply dbLimit2 opSell2 0 false))
    (by decide) (by rfl)

/-! ### Claim theorems: call orders -/

/-- C1 (code refutation): with a debt-asset balance of 5 and delta-debt
−10, the Validate phase of lines 122-127 succeeds — the source compares
the balance with the *signed negative* delta (`get_balance(...) >=
o.delta_debt`), so the pay-down check never fails — and the whole update
then succeeds, driving the funding account's debt-asset balance to −5.
The claim (like the check's own error message) requires an
`InsufficientBalance` failure before any mutation here. -/
theorem call_order_update_cover_check_vacuous :
    getBal dbCover opCover.funding_account opCover.delta_debt.symbol = 5 ∧
    opCover.delta_debt.amount = -10 ∧
    call_order_update_validate dbCover opCover = .ok bdCall ∧
    isOk (call_order_update_do_apply dbCover opCover false false) = true ∧
    getBal (stateOf (call_order_update_do_apply dbCover opCover false false))
      opCover.funding_account opCover.delta_debt.symbol = -5 :=
  ⟨rfl, rfl, rfl, rfl, rfl⟩

/-- C2 counterexample: when the liquidation trigger reports no fills but
the call record is nonetheless gone, the operation fails with the distinct
internal assertion `callObjectDeletedWithoutFill` (line 219), not with
`UnfilledMarginCall` as the claim states. -/
theorem call_order_update_nofill_deleted_error :
    call_order_update_do_apply dbCall opBorrow false true
      = .error .callObjectDeletedWithoutFill ∧
    Err.callObjectDeletedWithoutFill ≠ Err.unfilledMarginCall :=
  ⟨rfl, by decide⟩

/-- C2 (amended): in the Execute phase on a non-prediction-market asset
with the position still open, after the liquidation trigger ran with black
swans disallowed: on a reported fill the operation succeeds exactly when
the call record is gone and fails with `UnfilledMarginCall` when it
remains; on no reported fill, with the record still present, it succeeds
exactly when the record's `call_price` is strictly better than the feed's
settlement price and fails with `UnfilledMarginCall` otherwise — but when
the record is gone despite no fill it fails with the distinct internal
assertion `callObjectDeletedWithoutFill`, not `UnfilledMarginCall`. -/
theorem call_order_update_margin_call_outcome (d : Database) (o : call_order_update_operation)
    (bd : bitasset_data) (d4 d5 : Database) (call : call_order_object) (tf trR : Bool)
    (hv : call_order_update_validate d o = .ok bd)
    (hpm : bd.is_prediction_market = false)
    (ha : apply_deltas d o = .ok d4)
    (hu : update_position d4 o bd = .ok (.stillOpen d5 call)) :
    (tf = true → trR = true →
      call_order_update_do_apply d o tf trR
        = .ok ({ d5 with call_orders := aremove (o.funding_account, o.delta_debt.symbol) d5.call_orders },
               [ExtCall.checkCallOrders o.delta_debt.symbol false]) ∧
      alookup (o.funding_account, o.delta_debt.symbol)
        (stateOf (call_order_update_do_apply d o tf trR)).call_orders = none) ∧
    (tf = true → trR = false →
      call_order_update_do_apply d o tf trR = .error .unfilledMarginCall) ∧
    (tf = false → trR = false →
      (price.lt (price.invert call.call_price) bd.current_feed.settlement_price = true →
        call_order_update_do_apply d o tf trR
          = .ok (d5, [ExtCall.checkCallOrders o.delta_debt.symbol false])) ∧
      (price.lt (price.invert call.call_price) bd.current_feed.settlement_price = false →
        call_order_update_do_apply d o tf trR = .error .unfilledMarginCall)) ∧
    (tf = false → trR = true →
      call_order_update_do_apply d o tf trR = .error .callObjectDeletedWithoutFill) := by
  obtain ⟨hl, -, -, -, -, -, -⟩ := update_position_stillOpen d4 o bd d5 call hu
  have hrun : call_order_update_do_apply d o tf trR = margin_check d5 o bd tf trR := by
    simp only [call_order_update_do_apply, hv, call_order_update_execute, ha, hu]
    rw [if_neg (by simp [hpm])]
  refine ⟨?_, ?_, ?_, ?_⟩
  · intro htf htr
    subst htf
    subst htr
    have hm : margin_check d5 o bd true true
        = .ok ({ d5 with call_orders := aremove (o.funding_account, o.delta_debt.symbol) d5.call_orders },
               [ExtCall.checkCallOrders o.delta_debt.symbol false]) := by
      simp [margin_check, alookup_aremove_self]
    refine ⟨hrun.trans hm, ?_⟩
    rw [hrun, hm]
    simp [stateOf, alookup_aremove_self]
  · intro htf htr
    subst htf
    subst htr
    rw [hrun]
    simp [margin_check, hl]
  · intro htf htr
    subst htf
    subst htr
    constructor
    · intro hp
      rw [hrun]
      simp [margin_check, hl, hp]
    · intro hp
      rw [hrun]
      simp [margin_check, hl, hp]
  · intro htf htr
    subst htf
    subst htr
    rw [hrun]
    simp [margin_check, alookup_aremove_self]

/-- C2 witness: the amended theorem applied to the concrete borrow
`opBorrow` on `dbCall`, with the trigger reporting no fill and leaving the
record in place. -/
theorem call_order_update_margin_call_outcome_witness :
    ((false : Bool) = true → (false : Bool) = true →
      call_order_update_do_apply dbCall opBorrow false false
        = .ok ({ stillOpenState (update_position (deltasOf dbCall opBorrow) opBorrow bdCall) with
                  call_orders := aremove (opBorrow.funding_account, opBorrow.delta_debt.symbol)
                    (stillOpenState (update_position (deltasOf dbCall opBorrow) opBorrow bdCall)).call_orders },
               [ExtCall.checkCallOrders opBorrow.delta_debt.symbol false]) ∧
      alookup (opBorrow.funding_account, opBorrow.delta_debt.symbol)
        (stateOf (call_order_update_do_apply dbCall opBorrow false false)).call_orders = none) ∧
    ((false : Bool) = true → (false : Bool) = false →
      call_order_update_do_apply dbCall opBorrow false false = .error .unfilledMarginCall) ∧
    ((false : Bool) = false → (false : Bool) = false →
      (price.lt (price.invert (stillOpenCall (update_position (deltasOf dbCall opBorrow) opBorrow bdCall)).call_price)
          bdCall.current_feed.settlement_price = true →
        call_order_update_do_apply dbCall opBorrow false false
          = .ok (stillOpenState (update_position (deltasOf dbCall opBorrow) opBorrow bdCall),
                 [ExtCall.checkCallOrders opBorrow.delta_debt.symbol false])) ∧
      (price.lt (price.invert (stillOpenCall (update_position (deltasOf dbCall opBorrow) opBorrow bdCall)).call_price)
          bdCall.current_feed.settlement_price = false →
        call_order_update_do_apply dbCall opBorrow false false = .error .unfilledMarginCall)) ∧
    ((false : Bool) = false → (false : Bool) = true →
      call_order_update_do_apply dbCall opBorrow false false = .error .callObjectDeletedWithoutFill) :=
  call_order_update_margin_call_outcome dbCall opBorrow bdCall
    (deltasOf dbCall opBorrow)
    (stillOpenState (update_position (deltasOf dbCall opBorrow) opBorrow bdCall))
    (stillOpenCall (update_position (deltasOf dbCall opBorrow) opBorrow bdCall))
    false false (by rfl) (by rfl) (by rfl) (by rfl)

/-- C3: after a successful call-order update, the record for the
(funding account, debt asset) key is either absent or present with both
debt and collateral strictly positive — never with exactly one of them
zero. -/
theorem call_order_update_state_invariant (d : Database) (o : call_order_update_operation)
    (tf trR : Bool) (d' : Database) (tr : List ExtCall)
    (h : call_order_update_do_apply d o tf trR = .ok (d', tr)) :
    alookup (o.funding_account, o.delta_debt.symbol) d'.call_orders = none ∨
    (∃ c, alookup (o.funding_account, o.delta_debt.symbol) d'.call_orders = some c ∧
      0 < c.debt ∧ 0 < c.collateral) := by
  obtain ⟨bd, d4, hv, ha, hcase⟩ := do_apply_ok_cases d o tf trR d' tr h
  rcases hcase with ⟨d6, hu, rfl, rfl⟩ | ⟨d5, call, hu, hrest⟩
  · exact Or.inl (update_position_closed d4 o bd d' hu).1
  · obtain ⟨hl, hdpos, hcpos, -, -, -, -⟩ := update_position_stillOpen d4 o bd d5 call hu
    rcases hrest with ⟨hpm, rfl, rfl⟩ | ⟨hpm, hm⟩
    · exact Or.inr ⟨call, hl, hdpos, hcpos⟩
    · obtain ⟨-, -, -, hpull⟩ := margin_check_ok d5 o bd tf trR d' tr hm
      cases hl' : alookup (o.funding_account, o.delta_debt.symbol) d'.call_orders with
      | none => exact Or.inl rfl
      | some c =>
        have hc5 := hpull c hl'
        rw [hl, Option.some.injEq] at hc5
        subst hc5
        exact Or.inr ⟨call, rfl, hdpos, hcpos⟩

/-- C3 witness: the theorem applied to the concrete borrow `opBorrow` on
`dbCall` with a no-fill, no-removal trigger. -/
theorem call_order_update_state_invariant_witness :
    alookup (opBorrow.funding_account, opBorrow.delta_debt.symbol)
      (stateOf (call_order_update_do_apply dbCall opBorrow false false)).call_orders = none ∨
    (∃ c, alookup (opBorrow.funding_account, opBorrow.delta_debt.symbol)
        (stateOf (call_order_update_do_apply dbCall opBorrow false false)).call_orders = some c ∧
      0 < c.debt ∧ 0 < c.collateral) :=
  call_order_update_state_invariant dbCall opBorrow false false
    (stateOf (call_order_update_do_apply dbCall opBorrow false false))
    (traceOf (call_order_update_do_apply dbCall opBorrow false false)) (by rfl)

/-- C4: a call record surviving a successful update carries a `call_price`
equal to the Price/Collateral Math function applied to its stored debt,
its stored collateral and the current maintenance collateral ratio; the
math function is deterministic. -/
theorem call_order_update_call_price_correct (d : Database) (o : call_order_update_operation)
    (tf trR : Bool) (bd : bitasset_data) (d' : Database) (tr : List ExtCall) (c : call_order_object)
    (hv : call_order_update_validate d o = .ok bd)
    (h : call_order_update_do_apply d o tf trR = .ok (d', tr))
    (hc : alookup (o.funding_account, o.delta_debt.symbol) d'.call_orders = some c) :
    c.call_price = price.call_price ⟨c.debt, o.delta_debt.symbol⟩
      ⟨c.collateral, o.delta_collateral.symbol⟩ bd.current_feed.maintenance_collateral_ratio ∧
    (∀ de co r, price.call_price de co r = price.call_price de co r) := by
  obtain ⟨bd', d4, hv', ha, hcase⟩ := do_apply_ok_cases d o tf trR d' tr h
  rw [hv, Except.ok.injEq] at hv'
  subst hv'
  rcases hcase with ⟨d6, hu, rfl, rfl⟩ | ⟨d5, call, hu, hrest⟩
  · rw [(update_position_closed d4 o bd d' hu).1] at hc
    exact absurd hc (by simp)
  · obtain ⟨hl, -, -, hprice, -, -, -⟩ := update_position_stillOpen d4 o bd d5 call hu
    rcases hrest with ⟨hpm, rfl, rfl⟩ | ⟨hpm, hm⟩
    · rw [hl, Option.some.injEq] at hc
      subst hc
      exact ⟨hprice, fun _ _ _ => rfl⟩
    · obtain ⟨-, -, -, hpull⟩ := margin_check_ok d5 o bd tf trR d' tr hm
      have hc5 := hpull c hc
      rw [hl, Option.some.injEq] at hc5
      subst hc5
      exact ⟨hprice, fun _ _ _ => rfl⟩

/-- C4 witness: the theorem applied to the concrete borrow `opBorrow` on
`dbCall`, whose surviving record is the one just created. -/
theorem call_order_update_call_price_correct_witness :
    (stillOpenCall (update_position (deltasOf dbCall opBorrow) opBorrow bdCall)).call_price
      = price.call_price
          ⟨(stillOpenCall (update_position (deltasOf dbCall opBorrow) opBorrow bdCall)).debt,
            opBorrow.delta_debt.symbol⟩
          ⟨(stillOpenCall (update_position (deltasOf dbCall opBorrow) opBorrow bdCall)).collateral,
            opBorrow.delta_collateral.symbol⟩
          bdCall.current_feed.maintenance_collateral_ratio ∧
    (∀ de co r, price.call_price de co r = price.call_price de co r) :=
  call_order_update_call_price_correct dbCall opBorrow false false bdCall
    (stateOf (call_order_update_do_apply dbCall opBorrow false false))
    (traceOf (call_order_update_do_apply dbCall opBorrow false false))
    (stillOpenCall (update_position (deltasOf dbCall opBorrow) opBorrow bdCall))
    (by rfl) (by rfl) (by rfl)

/-- C8: after a successful update with nonzero delta-debt the debt asset's
supply moved by exactly delta-debt and is non-negative; the negative-supply
fault is unreachable whenever the pre-state supply plus delta-debt is
non-negative; when the Validate phase passes and that sum is negative the
operation fails with the fatal `fatalNegativeSupply`, which is classified
as a fatal internal fault and not as the user error `InsufficientBalance`. -/
theorem call_order_update_supply_safety (d : Database) (o : call_order_update_operation)
    (tf trR : Bool) :
    (∀ d' tr, call_order_update_do_apply d o tf trR = .ok (d', tr) → o.delta_debt.amount ≠ 0 →
      getSupply d' o.delta_debt.symbol = getSupply d o.delta_debt.symbol + o.delta_debt.amount ∧
      0 ≤ getSupply d' o.delta_debt.symbol) ∧
    (0 ≤ getSupply d o.delta_debt.symbol + o.delta_debt.amount →
      call_order_update_do_apply d o tf trR ≠ .error .fatalNegativeSupply) ∧
    (∀ bd, call_order_update_validate d o = .ok bd →
      o.delta_debt.amount ≠ 0 → getSupply d o.delta_debt.symbol + o.delta_debt.amount < 0 →
      call_order_update_do_apply d o tf trR = .error .fatalNegativeSupply) ∧
    Err.isFatal .fatalNegativeSupply = true ∧ Err.isFatal .insufficientBalance = false := by
  refine ⟨?_, ?_, ?_, rfl, rfl⟩
  · intro d' tr h hd
    obtain ⟨bd, d4, hv, ha, hcase⟩ := do_apply_ok_cases d o tf trR d' tr h
    obtain ⟨-, -, hsup, -, -⟩ := apply_deltas_ok d o d4 ha
    obtain ⟨hs4, hnn⟩ := hsup hd
    have hmain : d'.current_supply = d4.current_supply := by
      rcases hcase with ⟨d6, hu, rfl, rfl⟩ | ⟨d5, call, hu, hrest⟩
      · exact (update_position_closed d4 o bd d' hu).2.2.1
      · have h5 := (update_position_stillOpen d4 o bd d5 call hu).2.2.2.2.2.1
        rcases hrest with ⟨hpm, rfl, rfl⟩ | ⟨hpm, hm⟩
        · exact h5
        · exact ((margin_check_ok d5 o bd tf trR d' tr hm).2.1).trans h5
    have e1 : getSupply d' o.delta_debt.symbol = getSupply d4 o.delta_debt.symbol := by
      unfold getSupply
      rw [hmain]
    rw [e1, hs4]
    exact ⟨rfl, hnn⟩
  · intro hnn hcontra
    simp only [call_order_update_do_apply] at hcontra
    cases hv : call_order_update_validate d o with
    | error e =>
      simp only [hv] at hcontra
      rw [Except.error.injEq] at hcontra
      exact call_order_update_validate_error d o e hv hcontra
    | ok bd =>
      simp only [hv, call_order_update_execute] at hcontra
      cases ha : apply_deltas d o with
      | error e =>
        simp only [ha] at hcontra
        rw [Except.error.injEq] at hcontra
        obtain ⟨-, -, hlt⟩ := apply_deltas_error d o e ha
        omega
      | ok d4 =>
        simp only [ha] at hcontra
        cases hu : update_position d4 o bd with
        | error e =>
          simp only [hu] at hcontra
          rw [Except.error.injEq] at hcontra
          exact update_position_error d4 o bd e hu hcontra
        | ok pr =>
          cases pr with
          | closed d6 =>
            simp only [hu] at hcontra
            exact absurd hcontra (by simp)
          | stillOpen d5 call =>
            simp only [hu] at hcontra
            cases hpm : bd.is_prediction_market with
            | true =>
              rw [if_pos hpm] at hcontra
              exact absurd hcontra (by simp)
            | false =>
              rw [if_neg (by simp [hpm])] at hcontra
              cases hm : margin_check d5 o bd tf trR with
              | ok p =>
                rw [hm] at hcontra
                exact absurd hcontra (by simp)
              | error e =>
                rw [hm, Except.error.injEq] at hcontra
                exact margin_check_error d5 o bd tf trR e hm hcontra
  · intro bd hv hd hs
    have ha : apply_deltas d o = .error .fatalNegativeSupply := by
      simp only [apply_deltas, hd, ne_eq, not_false_eq_true, if_true, true_and, ite_true,
        getSupply, adjust_balance_current_supply]
      rw [if_pos (by simpa [getSupply] using hs)]
    simp only [call_order_update_do_apply, hv, call_order_update_execute, ha]

/-- C8 witness: the supply equation at the concrete borrow `opBorrow` on
`dbCall`, and the fatal fault at the over-cover `opOverCover` on
`dbCover`. -/
theorem call_order_update_supply_safety_witness :
    (getSupply (stateOf (call_order_update_do_apply dbCall opBorrow false false))
        opBorrow.delta_debt.symbol
      = getSupply dbCall opBorrow.delta_debt.symbol + opBorrow.delta_debt.amount ∧
      0 ≤ getSupply (stateOf (call_order_update_do_apply dbCall opBorrow false false))
        opBorrow.delta_debt.symbol) ∧
    call_order_update_do_apply dbCover opOverCover false false = .error .fatalNegativeSupply :=
  ⟨(call_order_update_supply_safety dbCall opBorrow false false).1
      (stateOf (call_order_update_do_apply dbCall opBorrow false false))
      (traceOf (call_order_update_do_apply dbCall opBorrow false false)) (by rfl) (by decide),
   (call_order_update_supply_safety dbCover opOverCover false false).2.2.1 bdCall (by rfl)
      (by decide) (by decide)⟩

/-- C9: in a successful update on distinct collateral and debt assets,
a zero delta-debt leaves the funding account's debt-asset balance and the
debt asset's supply unchanged, and a zero delta-collateral leaves the
funding account's collateral-asset balance and `total_core_in_orders`
unchanged. -/
theorem call_order_update_frame_effects (d : Database) (o : call_order_update_operation)
    (tf trR : Bool) (d' : Database) (tr : List ExtCall)
    (hsym : o.delta_collateral.symbol ≠ o.delta_debt.symbol)
    (h : call_order_update_do_apply d o tf trR = .ok (d', tr)) :
    (o.delta_debt.amount = 0 →
      getBal d' o.funding_account o.delta_debt.symbol
        = getBal d o.funding_account o.delta_debt.symbol ∧
      getSupply d' o.delta_debt.symbol = getSupply d o.delta_debt.symbol) ∧
    (o.delta_collateral.amount = 0 →
      getBal d' o.funding_account o.delta_collateral.symbol
        = getBal d o.funding_account o.delta_collateral.symbol ∧
      getStat d' o.funding_account = getStat d o.funding_account) := by
  obtain ⟨bd, d4, hv, ha, hcase⟩ := do_apply_ok_cases d o tf trR d' tr h
  obtain ⟨-, hsup0, -, hstats0, hbal⟩ := apply_deltas_ok d o d4 ha
  have hframe : d'.balances = d4.balances ∧ d'.current_supply = d4.current_supply ∧
      d'.stats = d4.stats := by
    rcases hcase with ⟨d6, hu, rfl, rfl⟩ | ⟨d5, call, hu, hrest⟩
    · obtain ⟨-, hb, hs, hst⟩ := update_position_closed d4 o bd d' hu
      exact ⟨hb, hs, hst⟩
    · obtain ⟨-, -, -, -, hb5, hs5, hst5⟩ := update_position_stillOpen d4 o bd d5 call hu
      rcases hrest with ⟨hpm, rfl, rfl⟩ | ⟨hpm, hm⟩
      · exact ⟨hb5, hs5, hst5⟩
      · obtain ⟨hb6, hs6, hst6, -⟩ := margin_check_ok d5 o bd tf trR d' tr hm
        exact ⟨hb6.trans hb5, hs6.trans hs5, hst6.trans hst5⟩
  obtain ⟨hbEq, hsEq, hstEq⟩ := hframe
  constructor
  · intro h0
    constructor
    · have e1 : getBal d' o.funding_account o.delta_debt.symbol
          = getBal d4 o.funding_account o.delta_debt.symbol := by
        unfold getBal
        rw [hbEq]
      rw [e1]
      exact hbal _ _ (Or.inr h0) (Or.inl (Ne.symm hsym))
    · have e2 : getSupply d' o.delta_debt.symbol = getSupply d4 o.delta_debt.symbol := by
        unfold getSupply
        rw [hsEq]
      rw [e2]
      unfold getSupply
      rw [hsup0 h0]
  · intro h0
    constructor
    · have e3 : getBal d' o.funding_account o.delta_collateral.symbol
          = getBal d4 o.funding_account o.delta_collateral.symbol := by
        unfold getBal
        rw [hbEq]
      rw [e3]
      exact hbal _ _ (Or.inl hsym) (Or.inr h0)
    · have e4 : getStat d' o.funding_account = getStat d4 o.funding_account := by
        unfold getStat
        rw [hstEq]
      rw [e4]
      unfold getStat
      rw [hstats0 h0]

/-- C9 witness: the theorem applied to the pay-down `opCover` (zero
delta-collateral) on `dbCover`. -/
theorem call_order_update_frame_effects_witness :
    (opCover.delta_debt.amount = 0 →
      getBal (stateOf (call_order_update_do_apply dbCover opCover false false))
          opCover.funding_account opCover.delta_debt.symbol
        = getBal dbCover opCover.funding_account opCover.delta_debt.symbol ∧
      getSupply (stateOf (call_order_update_do_apply dbCover opCover false false))
          opCover.delta_debt.symbol
        = getSupply dbCover opCover.delta_debt.symbol) ∧
    (opCover.delta_collateral.amount = 0 →
      getBal (stateOf (call_order_update_do_apply dbCover opCover false false))
          opCover.funding_account opCover.delta_collateral.symbol
        = getBal dbCover opCover.funding_account opCover.delta_collateral.symbol ∧
      getStat (stateOf (call_order_update_do_apply dbCover opCover false false))
          opCover.funding_account
        = getStat dbCover opCover.funding_account) :=
  call_order_update_frame_effects dbCover opCover false false
    (stateOf (call_order_update_do_apply dbCover opCover false false))
    (traceOf (call_order_update_do_apply dbCover opCover false false))
    (by decide) (by rfl)

end Golos
